import Mathlib

/-!
# connectivity-monitor: label sanitizer and probing loop

A shallow embedding of `monitor.go`.

* Go strings are embedded as Lean `String`s, read rune by rune.
* `invalidCharacters` is the compiled pattern `[^A-Z_a-z]+`; `getMetricName`
  is `invalidCharacters.ReplaceAllString(host, "_")`.
* The two Prometheus vectors `requestDurations` and `requestErrors` are
  association lists keyed by the `host` label value, in order of creation.
* `url.Parse`, `http.Get` and the clock are the environment (`World`).
-/

namespace Monitor

/-! ## Label sanitizer -/

/-- The character class of the pattern `[^A-Z_a-z]+`: everything but the
ASCII letters and the underscore. -/
def invalidClass (c : Char) : Bool :=
  !(('A' ≤ c && c ≤ 'Z') || c == '_' || ('a' ≤ c && c ≤ 'z'))

/-- The scan of `ReplaceAllString` for the pattern `[^A-Z_a-z]+` and the
replacement text `_` (which holds no `$`, so it is copied literally).
`inMatch` says that the previous rune was consumed by the current match,
whose replacement has already been written: the `+` is greedy, so the match
goes on through every following rune of the class.  A rune outside the class
is unmatched text and is copied. -/
def replaceAllFrom : Bool → List Char → List Char
  | _, [] => []
  | inMatch, c :: cs =>
    if invalidClass c then
      if inMatch then replaceAllFrom true cs else '_' :: replaceAllFrom true cs
    else c :: replaceAllFrom false cs

/-- The call `invalidCharacters.ReplaceAllString(src, "_")`. -/
def invalidCharacters.ReplaceAllString (src : String) : String :=
  ⟨replaceAllFrom false src.data⟩

/-- The function `getMetricName` of `monitor.go`. -/
def getMetricName (host : String) : String :=
  invalidCharacters.ReplaceAllString host

/-- The sanitizer as the specification words it: cut the text into its maximal
runs of characters that are all inside or all outside `[A-Za-z_]`, put a
single `_` for each run of outside characters, keep the other runs. -/
def collapseRuns (host : String) : String :=
  ⟨((host.data.splitBy (fun a b => invalidClass a == invalidClass b)).map
      (fun run => if run.all invalidClass then ['_'] else run)).flatten⟩

/-- A character of the class `[A-Za-z_]`: an ASCII letter or the underscore. -/
def legal (c : Char) : Prop :=
  ('A' ≤ c ∧ c ≤ 'Z') ∨ ('a' ≤ c ∧ c ≤ 'z') ∨ c = '_'

/-! ## Metrics registry -/

/-- The two metric vectors of the process, each keyed by the value of the
`host` label.  A summary child is embedded as the list of the values observed
so far (its sample count is the length), a counter child as its count.  Each
sample is `time.Since(start)` in nanoseconds: the code observes that
duration converted to `float64` and divided by `float64(time.Millisecond)`. -/
structure Registry where
  requestDurations : List (String × List Int)
  requestErrors : List (String × Nat)
deriving DecidableEq

/-- The registry before any child was created. -/
def Registry.empty : Registry := ⟨[], []⟩

/-- The call `requestDurations.WithLabelValues(label).Observe(v)`: the child of
the label is created on first use, then the sample is added to it. -/
def Observe : List (String × List Int) → String → Int → List (String × List Int)
  | [], label, v => [(label, [v])]
  | (k, vs) :: rest, label, v =>
    if k = label then (k, vs ++ [v]) :: rest else (k, vs) :: Observe rest label v

/-- The call `requestErrors.WithLabelValues(label).Inc()`: the child of the
label is created on first use, then incremented by one. -/
def Inc : List (String × Nat) → String → List (String × Nat)
  | [], label => [(label, 1)]
  | (k, n) :: rest, label =>
    if k = label then (k, n + 1) :: rest else (k, n) :: Inc rest label

/-- The child registered under a label, if there is one. -/
def child {β : Type} : List (String × β) → String → Option β
  | [], _ => none
  | (k, b) :: rest, label => if k = label then some b else child rest label

/-- Number of latency samples held under a label (none without a child). -/
def Registry.sampleCount (r : Registry) (label : String) : Nat :=
  match child r.requestDurations label with
  | some vs => vs.length
  | none => 0

/-- Value of the error counter of a label (zero without a child). -/
def Registry.errorCount (r : Registry) (label : String) : Nat :=
  match child r.requestErrors label with
  | some n => n
  | none => 0

/-- Number of latency samples held in the whole registry. -/
def Registry.totalSamples (r : Registry) : Nat :=
  (r.requestDurations.map (fun e => e.2.length)).sum

/-- Number of error increments held in the whole registry. -/
def Registry.totalErrors (r : Registry) : Nat :=
  (r.requestErrors.map (fun e => e.2)).sum

/-! ## Environment -/

/-- What the code reads of a parsed `*url.URL`: its `Host` field. -/
structure URL where
  Host : String
deriving DecidableEq

/-- What `http.Get` hands back, `(resp, err)`, with the time the call took:
`resp` is `none` for a nil response (the code only tests it for nil and closes
its body, so the status code is all that is kept of it), `err` is `none` for a
nil error and `elapsed` is `time.Since(start)` in nanoseconds. -/
structure GetResult where
  resp : Option Nat
  err : Option String
  elapsed : Int
deriving DecidableEq

/-- The world outside the process.  `Parse` is `url.Parse` (the parsed URL, or
the text of the error); `Get k u` is the outcome of `http.Get(u)` when `k`
requests have been issued before it. -/
structure World where
  Parse : String → Except String URL
  Get : Nat → String → GetResult

/-- The state the probing goroutine acts on: the registry, the arguments of
the `url.Parse` and `http.Get` calls made so far, in order, and the number of
response bodies closed. -/
structure State where
  registry : Registry
  parsed : List String
  gets : List String
  closed : Nat
deriving DecidableEq

/-- The state of a fresh process. -/
def State.init : State := ⟨Registry.empty, [], [], 0⟩

/-- How a call ends: it returns, or it panics with a message. -/
inductive Result where
  | returned (s : State)
  | panicked (msg : String) (s : State)
deriving DecidableEq

/-- The state a call ended in. -/
def Result.state : Result → State
  | .returned s => s
  | .panicked _ s => s

/-- Whether a call panicked. -/
def Result.isPanic : Result → Bool
  | .returned _ => false
  | .panicked _ _ => true

/-! ## Request prober and monitor loop -/

/-- The cutset `"\r "` of the `strings.Trim` call. -/
def cutset (c : Char) : Bool := c == '\r' || c == ' '

/-- The call `strings.Trim(s, "\r ")`: every leading and every trailing rune of
the cutset is removed. -/
def Trim (s : String) : String :=
  ⟨(s.data.dropWhile cutset).rdropWhile cutset⟩

/-- The function `makeRequest` of `monitor.go`. -/
def makeRequest (w : World) (s : State) (urlstring : String) : Result :=
  let urlstring := Trim urlstring
  if urlstring = "" then .returned s
  else
    let s := { s with parsed := s.parsed ++ [urlstring] }
    match w.Parse urlstring with
    | .error err => .panicked ("Bad url " ++ urlstring ++ err) s
    | .ok u =>
      let metricName := getMetricName u.Host
      let r := w.Get s.gets.length urlstring
      let s := { s with gets := s.gets ++ [urlstring] }
      let s :=
        if r.err.isSome then
          { s with registry := { s.registry with
              requestErrors := Inc s.registry.requestErrors metricName } }
        else s
      let s := { s with registry := { s.registry with
          requestDurations := Observe s.registry.requestDurations metricName r.elapsed } }
      let s := if r.resp.isSome then { s with closed := s.closed + 1 } else s
      .returned s

/-- One pass of `for _, urlstring := range lines { makeRequest(urlstring) }`:
a panic of `makeRequest` is not recovered, so it ends the pass. -/
def cycle (w : World) : State → List String → Result
  | s, [] => .returned s
  | s, urlstring :: rest =>
    match makeRequest w s urlstring with
    | .returned s1 => cycle w s1 rest
    | .panicked msg s1 => .panicked msg s1

/-- The first `n` iterations of the endless `for` of the goroutine started by
`main`, each a pass over the same `lines` (the sleep between two passes only
takes time). -/
def monitorLoop (w : World) (lines : List String) : Nat → State → Result
  | 0, s => .returned s
  | n + 1, s =>
    match cycle w s lines with
    | .returned s1 => monitorLoop w lines n s1
    | .panicked msg s1 => .panicked msg s1

/-! ## A concrete world for the examples -/

/-- The answers of `url.Parse` on the texts the examples use: an absolute URL
has the text between `//` and the next `/` as `Host`, a tab is refused as a
control character, and a text without a scheme has an empty `Host`. -/
def exampleParse (s : String) : Except String URL :=
  if s = "http://a.example/" then .ok ⟨"a.example"⟩
  else if s = "http://b.example/" then .ok ⟨"b.example"⟩
  else if s = "http://c.example/" then .ok ⟨"c.example"⟩
  else if s = "http://a.b/" then .ok ⟨"a.b"⟩
  else if s = "http://a-b/" then .ok ⟨"a-b"⟩
  else if s = "\t" then .error "parse \"\\t\": net/url: invalid control character in URL"
  else .ok ⟨""⟩

/-- A world in which nothing listens on `b.example` (the connection is refused
after 2 ms) and every other request is answered with status 200 after 5 ms. -/
def exampleWorld : World where
  Parse := exampleParse
  Get := fun _ u =>
    if u = "http://b.example/" then ⟨none, some "dial tcp: connect: connection refused", 2000000⟩
    else ⟨some 200, none, 5000000⟩

/-- A world in which every request is answered with a redirect: `http.Get`
gives up after ten of them and hands back the last response (status 302)
together with a non-nil error. -/
def redirectWorld : World where
  Parse := exampleParse
  Get := fun _ _ =>
    ⟨some 302, some "Get \"http://a.example/\": stopped after 10 redirects", 5000000⟩

/-! ## Facts about the sanitizer -/

theorem invalidClass_eq_false_iff (c : Char) : invalidClass c = false ↔ legal c := by
  unfold invalidClass legal
  simp only [Bool.not_eq_false', Bool.or_eq_true, Bool.and_eq_true, decide_eq_true_eq,
    beq_iff_eq]
  tauto

theorem replaceAllFrom_clean (b : Bool) (s : List Char) :
    ∀ c ∈ replaceAllFrom b s, invalidClass c = false := by
  induction s generalizing b with
  | nil => intro c hc; simp [replaceAllFrom] at hc
  | cons a s ih =>
    intro c hc
    unfold replaceAllFrom at hc
    by_cases ha : invalidClass a = true
    · cases b
      · simp only [ha, if_true, Bool.false_eq_true, if_false, List.mem_cons] at hc
        rcases hc with rfl | hc
        · decide
        · exact ih true c hc
      · simp only [ha, if_true] at hc
        exact ih true c hc
    · simp only [ha, if_false, List.mem_cons, Bool.false_eq_true] at hc
      rcases hc with rfl | hc
      · simpa using ha
      · exact ih false c hc

theorem replaceAllFrom_of_clean (b : Bool) (s : List Char)
    (h : ∀ c ∈ s, invalidClass c = false) : replaceAllFrom b s = s := by
  induction s generalizing b with
  | nil => rfl
  | cons a s ih =>
    have ha : invalidClass a = false := h a (List.mem_cons_self _ _)
    have hs : ∀ c ∈ s, invalidClass c = false := fun c hc => h c (List.mem_cons_of_mem _ hc)
    simp [replaceAllFrom, ha, ih false hs]

/-- A match of `[^A-Z_a-z]+` that starts at a rune runs to the end of the
maximal run of class runes, and the scan goes on behind it. -/
theorem replaceAllFrom_true_eq (s : List Char) :
    replaceAllFrom true s = replaceAllFrom false (s.dropWhile invalidClass) := by
  induction s with
  | nil => rfl
  | cons a s ih =>
    by_cases ha : invalidClass a = true
    · simp [replaceAllFrom, List.dropWhile, ha, ih]
    · simp [replaceAllFrom, List.dropWhile, ha]

theorem splitBy_loop_acc {α : Type} (r : α → α → Bool) (l : List α) (a : α) (g : List α)
    (gs : List (List α)) :
    List.splitBy.loop r l a g gs = gs.reverse ++ List.splitBy.loop r l a g [] := by
  induction l generalizing a g gs with
  | nil => simp [List.splitBy.loop]
  | cons b l ih =>
    unfold List.splitBy.loop
    cases r a b
    · simp only []
      rw [ih b [] ((a :: g).reverse :: gs), ih b [] [(a :: g).reverse]]
      simp
    · simp only []
      exact ih b (a :: g) gs

theorem collapse_loop (l : List Char) (a : Char) (g : List Char)
    (hg : ∀ x ∈ g, invalidClass x = invalidClass a) :
    ((List.splitBy.loop (fun x y => invalidClass x == invalidClass y) l a g []).map
        (fun run => if run.all invalidClass then ['_'] else run)).flatten
      = if invalidClass a then '_' :: replaceAllFrom true l
        else (g.reverse ++ [a]) ++ replaceAllFrom false l := by
  induction l generalizing a g with
  | nil =>
    by_cases ha : invalidClass a = true
    · have hall : ((a :: g).reverse).all invalidClass = true := by
        rw [List.all_eq_true]
        intro x hx
        rcases List.mem_cons.1 (List.mem_reverse.1 hx) with rfl | hx
        · exact ha
        · rw [hg x hx]; exact ha
      simp only [List.splitBy.loop, List.reverse_cons, List.reverse_nil, List.nil_append,
        List.map_cons, List.map_nil, List.flatten_cons, List.flatten_nil, List.append_nil]
      rw [List.reverse_cons] at hall
      simp [hall, ha, replaceAllFrom]
    · have hall : ¬ (((a :: g).reverse).all invalidClass = true) := by
        rw [List.all_eq_true]
        intro hx
        exact ha (hx a (List.mem_reverse.2 (List.mem_cons_self _ _)))
      simp only [List.splitBy.loop, List.reverse_cons, List.reverse_nil, List.nil_append,
        List.map_cons, List.map_nil, List.flatten_cons, List.flatten_nil, List.append_nil]
      rw [List.reverse_cons] at hall
      simp [hall, ha, replaceAllFrom]
  | cons b l ih =>
    unfold List.splitBy.loop
    by_cases hab : invalidClass a = invalidClass b
    · have hr : (invalidClass a == invalidClass b) = true := by simp [hab]
      simp only [hr]
      have hg2 : ∀ x ∈ a :: g, invalidClass x = invalidClass b := by
        intro x hx
        rcases List.mem_cons.1 hx with rfl | hx
        · exact hab
        · rw [hg x hx]; exact hab
      rw [ih b (a :: g) hg2]
      by_cases hb : invalidClass b = true
      · simp [hab, hb, replaceAllFrom]
      · simp [hab, hb, replaceAllFrom]
    · have hr : (invalidClass a == invalidClass b) = false := by simp [hab]
      simp only [hr]
      rw [splitBy_loop_acc, List.map_append, List.flatten_append,
        ih b [] (by intro x hx; cases hx)]
      by_cases ha : invalidClass a = true
      · have hb : invalidClass b = false := by
          cases hbb : invalidClass b
          · rfl
          · exact absurd (ha.trans hbb.symm) hab
        have hall : (g.reverse ++ [a]).all invalidClass = true := by
          rw [List.all_eq_true]
          intro x hx
          rcases List.mem_append.1 hx with hx | hx
          · rw [hg x (List.mem_reverse.1 hx)]; exact ha
          · rw [List.mem_singleton.1 hx]; exact ha
        simp only [List.reverse_cons, List.map_cons, List.map_nil, List.flatten_cons,
          List.flatten_nil, List.append_nil, List.reverse_nil, List.nil_append]
        rw [if_pos hall]
        simp [ha, hb, replaceAllFrom]
      · have hb : invalidClass b = true := by
          cases hbb : invalidClass b
          · exact absurd ((Bool.eq_false_iff.2 ha).trans hbb.symm) hab
          · rfl
        have hall : ¬ ((g.reverse ++ [a]).all invalidClass = true) := by
          rw [List.all_eq_true]
          intro hx
          exact ha (hx a (List.mem_append_right _ (List.mem_singleton_self a)))
        simp only [List.reverse_cons, List.map_cons, List.map_nil, List.flatten_cons,
          List.flatten_nil, List.append_nil, List.reverse_nil, List.nil_append]
        rw [if_neg hall]
        simp [ha, hb, replaceAllFrom]

theorem replaceAllFrom_eq_collapse (s : List Char) :
    replaceAllFrom false s
      = ((s.splitBy (fun x y => invalidClass x == invalidClass y)).map
          (fun run => if run.all invalidClass then ['_'] else run)).flatten := by
  cases s with
  | nil => rfl
  | cons a l =>
    unfold List.splitBy
    rw [collapse_loop l a [] (by intro x hx; cases hx)]
    by_cases ha : invalidClass a = true
    · simp [ha, replaceAllFrom]
    · simp [ha, replaceAllFrom]

/-! ## Claims about the sanitizer -/

/-- C1: for every host, `getMetricName` gives the text in which each maximal
run of characters outside `[A-Za-z_]` is replaced by one `_` and every other
character is kept in place; `a.b.c` and `a-b-c` both give `a_b_c`. -/
theorem getMetricName_eq_collapseRuns (host : String) :
    getMetricName host = collapseRuns host
      ∧ getMetricName "" = ""
      ∧ getMetricName "a.b.c" = "a_b_c" ∧ getMetricName "a-b-c" = "a_b_c" := by
  refine ⟨?_, by decide, by decide, by decide⟩
  unfold getMetricName invalidCharacters.ReplaceAllString collapseRuns
  rw [replaceAllFrom_eq_collapse]

/-- C2: every character of `getMetricName h` is an ASCII letter or an
underscore. -/
theorem getMetricName_legal (h : String) (c : Char) (hc : c ∈ (getMetricName h).data) :
    ('A' ≤ c ∧ c ≤ 'Z') ∨ ('a' ≤ c ∧ c ≤ 'z') ∨ c = '_' :=
  (invalidClass_eq_false_iff c).1 (replaceAllFrom_clean false h.data c hc)

theorem getMetricName_legal_witness :
    '_' ∈ (getMetricName "a.b").data
      ∧ (('A' ≤ '_' ∧ '_' ≤ 'Z') ∨ ('a' ≤ '_' ∧ '_' ≤ 'z') ∨ '_' = '_') :=
  ⟨by decide, getMetricName_legal "a.b" '_' (by decide)⟩

/-- C10: `getMetricName` leaves a text of characters in `[A-Za-z_]` as it is,
and so applying it twice gives what applying it once gives. -/
theorem getMetricName_idempotent (x y : String) :
    ((∀ c ∈ x.data, legal c) → getMetricName x = x)
      ∧ getMetricName (getMetricName y) = getMetricName y := by
  constructor
  · intro hx
    unfold getMetricName invalidCharacters.ReplaceAllString
    rw [replaceAllFrom_of_clean false x.data
      (fun c hc => (invalidClass_eq_false_iff c).2 (hx c hc))]
  · unfold getMetricName invalidCharacters.ReplaceAllString
    simp only []
    rw [replaceAllFrom_of_clean false _ (replaceAllFrom_clean false y.data)]

theorem getMetricName_idempotent_witness :
    (∀ c ∈ "a_b".data, legal c)
      ∧ getMetricName "a_b" = "a_b"
      ∧ getMetricName (getMetricName "a..b") = getMetricName "a..b" :=
  have hx : ∀ c ∈ "a_b".data, legal c := by
    intro c hc
    have hc2 : c = 'a' ∨ c = '_' ∨ c = 'b' := by simpa using hc
    rcases hc2 with rfl | rfl | rfl <;> unfold legal <;> decide
  ⟨hx, (getMetricName_idempotent "a_b" "a..b").1 hx, (getMetricName_idempotent "a_b" "a..b").2⟩

/-! ## Facts about the registry and the prober -/

theorem child_Observe (m : List (String × List Int)) (l l2 : String) (v : Int) :
    child (Observe m l v) l2
      = if l = l2 then some ((child m l2).getD [] ++ [v]) else child m l2 := by
  induction m with
  | nil => by_cases h : l = l2 <;> simp [Observe, child, h]
  | cons e m ih =>
    obtain ⟨k, vs⟩ := e
    by_cases hk : k = l
    · subst hk
      by_cases h : k = l2 <;> simp [Observe, child, h]
    · by_cases hk2 : k = l2
      · subst hk2
        have hl : ¬ l = k := fun h => hk h.symm
        simp [Observe, child, hk, hl]
      · simp [Observe, child, hk, hk2, ih]

theorem child_Inc (m : List (String × Nat)) (l l2 : String) :
    child (Inc m l) l2 = if l = l2 then some ((child m l2).getD 0 + 1) else child m l2 := by
  induction m with
  | nil => by_cases h : l = l2 <;> simp [Inc, child, h]
  | cons e m ih =>
    obtain ⟨k, n⟩ := e
    by_cases hk : k = l
    · subst hk
      by_cases h : k = l2 <;> simp [Inc, child, h]
    · by_cases hk2 : k = l2
      · subst hk2
        have hl : ¬ l = k := fun h => hk h.symm
        simp [Inc, child, hk, hl]
      · simp [Inc, child, hk, hk2, ih]

theorem sum_Observe (m : List (String × List Int)) (l : String) (v : Int) :
    ((Observe m l v).map (fun e => e.2.length)).sum = (m.map (fun e => e.2.length)).sum + 1 := by
  induction m with
  | nil => simp [Observe]
  | cons e m ih =>
    obtain ⟨k, vs⟩ := e
    by_cases hk : k = l
    · simp [Observe, hk]; omega
    · simp [Observe, hk, ih]; omega

theorem sum_Inc (m : List (String × Nat)) (l : String) :
    ((Inc m l).map (fun e => e.2)).sum = (m.map (fun e => e.2)).sum + 1 := by
  induction m with
  | nil => simp [Inc]
  | cons e m ih =>
    obtain ⟨k, n⟩ := e
    by_cases hk : k = l
    · simp [Inc, hk]; omega
    · simp [Inc, hk, ih]; omega

theorem makeRequest_blank (w : World) (s : State) (t : String) (h : Trim t = "") :
    makeRequest w s t = .returned s := by
  simp [makeRequest, h]

theorem makeRequest_parsed (w : World) (s : State) (t : String) (u : URL)
    (h1 : Trim t ≠ "") (h2 : w.Parse (Trim t) = .ok u) :
    makeRequest w s t = .returned
      { registry :=
          { requestDurations := Observe s.registry.requestDurations (getMetricName u.Host)
              (w.Get s.gets.length (Trim t)).elapsed
            requestErrors :=
              if (w.Get s.gets.length (Trim t)).err.isSome
              then Inc s.registry.requestErrors (getMetricName u.Host)
              else s.registry.requestErrors }
        parsed := s.parsed ++ [Trim t]
        gets := s.gets ++ [Trim t]
        closed := if (w.Get s.gets.length (Trim t)).resp.isSome then s.closed + 1 else s.closed } := by
  unfold makeRequest
  simp only [h1, if_false, h2]
  split_ifs <;> rfl

theorem makeRequest_unparsed (w : World) (s : State) (t : String) (e : String)
    (h1 : Trim t ≠ "") (h2 : w.Parse (Trim t) = .error e) :
    makeRequest w s t
      = .panicked ("Bad url " ++ Trim t ++ e) { s with parsed := s.parsed ++ [Trim t] } := by
  unfold makeRequest
  simp only [h1, if_false, h2]

theorem cycle_append (w : World) (s : State) (pre post : List String) :
    cycle w s (pre ++ post)
      = match cycle w s pre with
        | .returned s1 => cycle w s1 post
        | .panicked msg s1 => .panicked msg s1 := by
  induction pre generalizing s with
  | nil => simp [cycle]
  | cons t pre ih =>
    simp only [List.cons_append, cycle]
    cases makeRequest w s t with
    | returned s1 => simpa using ih s1
    | panicked msg s1 => rfl

theorem errorCount_eq (r : Registry) (l : String) :
    r.errorCount l = (child r.requestErrors l).getD 0 := by
  unfold Registry.errorCount
  cases child r.requestErrors l <;> rfl

theorem sampleCount_eq (r : Registry) (l : String) :
    r.sampleCount l = ((child r.requestDurations l).getD []).length := by
  unfold Registry.sampleCount
  cases child r.requestDurations l <;> rfl

theorem Trim_of_cutset (line : String) (h : ∀ c ∈ line.data, cutset c = true) :
    Trim line = "" := by
  unfold Trim
  have hd : line.data.dropWhile cutset = [] := List.dropWhile_eq_nil_iff.2 h
  rw [hd]
  rfl

theorem makeRequest_parsed_fields (w : World) (s : State) (t : String) (u : URL)
    (h1 : Trim t ≠ "") (h2 : w.Parse (Trim t) = .ok u) :
    ∃ s1, makeRequest w s t = .returned s1
      ∧ s1.gets = s.gets ++ [Trim t]
      ∧ s1.registry.requestDurations
          = Observe s.registry.requestDurations (getMetricName u.Host)
              (w.Get s.gets.length (Trim t)).elapsed
      ∧ s1.registry.requestErrors
          = if (w.Get s.gets.length (Trim t)).err.isSome
            then Inc s.registry.requestErrors (getMetricName u.Host)
            else s.registry.requestErrors :=
  ⟨_, makeRequest_parsed w s t u h1 h2, rfl, rfl, rfl⟩

theorem cycle_cons_returned (w : World) (s s1 : State) (t : String) (rest : List String)
    (h : makeRequest w s t = .returned s1) : cycle w s (t :: rest) = cycle w s1 rest := by
  simp [cycle, h]

theorem cycle_cons_panicked (w : World) (s s1 : State) (t msg : String) (rest : List String)
    (h : makeRequest w s t = .panicked msg s1) :
    cycle w s (t :: rest) = .panicked msg s1 := by
  simp [cycle, h]

theorem failed_probes_from (w : World) (t : String) (u : URL)
    (h1 : Trim t ≠ "") (h2 : w.Parse (Trim t) = .ok u) (N : Nat) :
    ∀ s : State, (∀ i < N, (w.Get (s.gets.length + i) (Trim t)).err ≠ none) →
      ∃ s2, cycle w s (List.replicate N t) = .returned s2
        ∧ s2.registry.errorCount (getMetricName u.Host)
            = s.registry.errorCount (getMetricName u.Host) + N
        ∧ s2.registry.sampleCount (getMetricName u.Host)
            = s.registry.sampleCount (getMetricName u.Host) + N := by
  induction N with
  | zero => intro s _; exact ⟨s, rfl, rfl, rfl⟩
  | succ N ih =>
    intro s hfail
    have h0 : (w.Get s.gets.length (Trim t)).err.isSome = true := by
      have := hfail 0 (Nat.succ_pos N)
      rw [Nat.add_zero] at this
      exact Option.isSome_iff_ne_none.2 this
    obtain ⟨s1, hm, hg, hd, he⟩ := makeRequest_parsed_fields w s t u h1 h2
    rw [if_pos h0] at he
    obtain ⟨s2, hc, he2, hs2⟩ := ih s1 (by
      intro i hi
      have := hfail (i + 1) (Nat.succ_lt_succ hi)
      rw [hg, List.length_append, List.length_singleton, Nat.add_assoc, Nat.add_comm 1 i]
      exact this)
    refine ⟨s2, ?_, ?_, ?_⟩
    · rw [List.replicate_succ, cycle_cons_returned w s s1 t _ hm]; exact hc
    · rw [he2, errorCount_eq, errorCount_eq, he, child_Inc, if_pos rfl, Option.getD_some]
      omega
    · rw [hs2, sampleCount_eq, sampleCount_eq, hd, child_Observe, if_pos rfl, Option.getD_some,
        List.length_append, List.length_singleton]
      omega

theorem cycle_gets (w : World) (lines : List String)
    (h : ∀ l ∈ lines, Trim l ≠ "" → ∃ u, w.Parse (Trim l) = .ok u) :
    ∀ s : State, ∃ s2, cycle w s lines = .returned s2
      ∧ s2.gets = s.gets ++ (lines.map Trim).filter (fun l => l ≠ "") := by
  induction lines with
  | nil => intro s; exact ⟨s, rfl, by simp⟩
  | cons t lines ih =>
    intro s
    have hrest : ∀ l ∈ lines, Trim l ≠ "" → ∃ u, w.Parse (Trim l) = .ok u :=
      fun l hl => h l (List.mem_cons_of_mem _ hl)
    by_cases ht : Trim t = ""
    · obtain ⟨s2, hc, hg⟩ := ih hrest s
      refine ⟨s2, ?_, ?_⟩
      · rw [cycle_cons_returned w s s t _ (makeRequest_blank w s t ht)]; exact hc
      · rw [hg]; simp [ht]
    · obtain ⟨u, hu⟩ := h t (List.mem_cons_self _ _) ht
      obtain ⟨s1, hm, hg1, _, _⟩ := makeRequest_parsed_fields w s t u ht hu
      obtain ⟨s2, hc, hg⟩ := ih hrest s1
      refine ⟨s2, ?_, ?_⟩
      · rw [cycle_cons_returned w s s1 t _ hm]; exact hc
      · rw [hg, hg1]
        simp [ht]

theorem monitorLoop_gets (w : World) (lines : List String)
    (h : ∀ l ∈ lines, Trim l ≠ "" → ∃ u, w.Parse (Trim l) = .ok u) (n : Nat) :
    ∀ s : State, ∃ s2, monitorLoop w lines n s = .returned s2
      ∧ s2.gets = s.gets
          ++ (List.replicate n ((lines.map Trim).filter (fun l => l ≠ ""))).flatten := by
  induction n with
  | zero => intro s; exact ⟨s, rfl, by simp⟩
  | succ n ih =>
    intro s
    obtain ⟨s1, hc, hg1⟩ := cycle_gets w lines h s
    obtain ⟨s2, hl, hg2⟩ := ih s1
    refine ⟨s2, ?_, ?_⟩
    · simp only [monitorLoop, hc]; exact hl
    · rw [hg2, hg1, List.replicate_succ, List.flatten_cons, List.append_assoc]

/-! ## Claims about the prober and the loop -/

/-- C4: for every `N` and every target that parses, from a registry without a
child for the target's label, `N` calls of `makeRequest` in a row on that
target whose GET fails each time leave the error counter of the label at `N`
and the latency summary of the label with `N` samples. -/
theorem failed_probes_counted (w : World) (s : State) (t : String) (u : URL) (N : Nat)
    (h1 : Trim t ≠ "") (h2 : w.Parse (Trim t) = .ok u)
    (hd : child s.registry.requestDurations (getMetricName u.Host) = none)
    (he : child s.registry.requestErrors (getMetricName u.Host) = none)
    (hfail : ∀ i < N, (w.Get (s.gets.length + i) (Trim t)).err ≠ none) :
    ∃ s2, cycle w s (List.replicate N t) = .returned s2
      ∧ s2.registry.errorCount (getMetricName u.Host) = N
      ∧ s2.registry.sampleCount (getMetricName u.Host) = N := by
  obtain ⟨s2, hc, he2, hs2⟩ := failed_probes_from w t u h1 h2 N s hfail
  refine ⟨s2, hc, ?_, ?_⟩
  · rw [he2, errorCount_eq, he]; simp
  · rw [hs2, sampleCount_eq, hd]; simp

theorem failed_probes_counted_witness :
    ∃ s2, cycle exampleWorld State.init (List.replicate 2 "http://b.example/") = .returned s2
      ∧ s2.registry.errorCount (getMetricName "b.example") = 2
      ∧ s2.registry.sampleCount (getMetricName "b.example") = 2 :=
  failed_probes_counted exampleWorld State.init "http://b.example/" ⟨"b.example"⟩ 2
    (by decide) rfl rfl rfl (fun _ _ => Option.some_ne_none _)

/-- C5 (amended): for every line that is empty or made of spaces and carriage
returns only, `makeRequest` returns normally with the state unchanged: no URL
is parsed, no GET is issued and no metric child is created or changed. -/
theorem blank_line_skipped (w : World) (s : State) (line : String)
    (h : ∀ c ∈ line.data, c = ' ' ∨ c = '\r') :
    makeRequest w s line = .returned s := by
  apply makeRequest_blank
  apply Trim_of_cutset
  intro c hc
  rcases h c hc with rfl | rfl <;> decide

theorem blank_line_skipped_witness :
    (∀ c ∈ " \r ".data, c = ' ' ∨ c = '\r')
      ∧ makeRequest exampleWorld State.init " \r " = .returned State.init :=
  have h : ∀ c ∈ " \r ".data, c = ' ' ∨ c = '\r' := by
    intro c hc
    have hc2 : c = ' ' ∨ c = '\r' ∨ c = ' ' := by simpa using hc
    rcases hc2 with h | h | h
    · exact Or.inl h
    · exact Or.inr h
    · exact Or.inl h
  ⟨h, blank_line_skipped exampleWorld State.init " \r " h⟩

/-- C5 fails for a tab: the line `"\t"` consists of whitespace only, yet
`strings.Trim(urlstring, "\r ")` keeps the tab, the line goes to `url.Parse`,
which refuses the control character, and `makeRequest` panics. -/
theorem tab_line_not_skipped :
    Trim "\t" = "\t"
      ∧ (makeRequest exampleWorld State.init "\t").isPanic = true
      ∧ (makeRequest exampleWorld State.init "\t").state.parsed = ["\t"]
      ∧ makeRequest exampleWorld State.init "\t" ≠ .returned State.init := by
  decide

/-- C6 fails when a response comes with an error: `http.Get` returns the last
response of a redirect chain (status 302) and a non-nil error, `makeRequest`
tests only `err != nil`, and the error counter of the label goes from 0 to 1
although a response was returned. -/
theorem response_with_error_counted :
    (redirectWorld.Get 0 "http://a.example/").resp = some 302
      ∧ (redirectWorld.Get 0 "http://a.example/").err ≠ none
      ∧ State.init.registry.errorCount (getMetricName "a.example") = 0
      ∧ (makeRequest redirectWorld State.init "http://a.example/").state.registry.errorCount
          (getMetricName "a.example") = 1
      ∧ makeRequest redirectWorld State.init "http://a.example/"
        = .returned
            { registry :=
                { requestDurations := [("a_example", [5000000])]
                  requestErrors := [("a_example", 1)] }
              parsed := ["http://a.example/"]
              gets := ["http://a.example/"]
              closed := 1 } := by
  decide

/-- C6 (amended): for every target that parses, `makeRequest` adds one to the
error counter of the target's label exactly when the GET returns a non-nil
error; when the GET returns no error, whatever the status code of the
response, the error counters are all left as they are and one latency sample
is added under the target's label. -/
theorem error_iff_transport_error (w : World) (s : State) (t : String) (u : URL)
    (h1 : Trim t ≠ "") (h2 : w.Parse (Trim t) = .ok u) :
    ∃ s2, makeRequest w s t = .returned s2
      ∧ (s2.registry.errorCount (getMetricName u.Host)
            = s.registry.errorCount (getMetricName u.Host) + 1
          ↔ (w.Get s.gets.length (Trim t)).err ≠ none)
      ∧ ((w.Get s.gets.length (Trim t)).err = none →
          s2.registry.requestErrors = s.registry.requestErrors
            ∧ (∀ l, s2.registry.errorCount l = s.registry.errorCount l)
            ∧ s2.registry.sampleCount (getMetricName u.Host)
                = s.registry.sampleCount (getMetricName u.Host) + 1) := by
  obtain ⟨s2, hm, _, hd, he⟩ := makeRequest_parsed_fields w s t u h1 h2
  refine ⟨s2, hm, ?_, ?_⟩
  · cases herr : (w.Get s.gets.length (Trim t)).err with
    | none =>
      rw [herr] at he
      simp only [Option.isSome_none, Bool.false_eq_true, if_false] at he
      rw [errorCount_eq, errorCount_eq, he]
      simp
    | some e =>
      rw [herr] at he
      simp only [Option.isSome_some, if_true] at he
      rw [errorCount_eq, errorCount_eq, he, child_Inc]
      simp
  · intro herr
    rw [herr] at he
    simp only [Option.isSome_none, Bool.false_eq_true, if_false] at he
    refine ⟨he, ?_, ?_⟩
    · intro l
      rw [errorCount_eq, errorCount_eq, he]
    · rw [sampleCount_eq, sampleCount_eq, hd, child_Observe]
      simp

theorem error_iff_transport_error_witness :
    ∃ s2, makeRequest exampleWorld State.init "http://a.example/" = .returned s2
      ∧ (s2.registry.errorCount (getMetricName "a.example")
            = State.init.registry.errorCount (getMetricName "a.example") + 1
          ↔ (exampleWorld.Get State.init.gets.length (Trim "http://a.example/")).err ≠ none)
      ∧ ((exampleWorld.Get State.init.gets.length (Trim "http://a.example/")).err = none →
          s2.registry.requestErrors = State.init.registry.requestErrors
            ∧ (∀ l, s2.registry.errorCount l = State.init.registry.errorCount l)
            ∧ s2.registry.sampleCount (getMetricName "a.example")
                = State.init.registry.sampleCount (getMetricName "a.example") + 1) :=
  error_iff_transport_error exampleWorld State.init "http://a.example/" ⟨"a.example"⟩
    (by decide) rfl

/-- C7: for every target whose trimmed text is not empty and does not parse,
`makeRequest` panics, having issued no GET and left the registry as it was;
so a pass that reaches such a target ends there in a panic, with no GET for
that target or any later one. -/
theorem bad_url_panics (w : World) (s s1 : State) (t e : String) (pre post : List String)
    (h1 : Trim t ≠ "") (h2 : w.Parse (Trim t) = .error e)
    (hpre : cycle w s pre = .returned s1) :
    (∃ msg s2, makeRequest w s1 t = .panicked msg s2
        ∧ s2.gets = s1.gets ∧ s2.registry = s1.registry)
      ∧ (∃ msg s2, cycle w s (pre ++ t :: post) = .panicked msg s2
        ∧ s2.gets = s1.gets ∧ s2.registry = s1.registry) := by
  have hm := makeRequest_unparsed w s1 t e h1 h2
  have hc : cycle w s (pre ++ t :: post)
      = .panicked ("Bad url " ++ Trim t ++ e) { s1 with parsed := s1.parsed ++ [Trim t] } := by
    rw [cycle_append, hpre]
    exact cycle_cons_panicked w s1 _ t _ post hm
  exact ⟨⟨_, _, hm, rfl, rfl⟩, ⟨_, _, hc, rfl, rfl⟩⟩

theorem bad_url_panics_witness :
    (∃ msg s2, makeRequest exampleWorld
          (cycle exampleWorld State.init ["http://a.example/"]).state "\t" = .panicked msg s2
        ∧ s2.gets = ["http://a.example/"]
        ∧ s2.registry = (cycle exampleWorld State.init ["http://a.example/"]).state.registry)
      ∧ (∃ msg s2, cycle exampleWorld State.init
            (["http://a.example/"] ++ "\t" :: ["http://c.example/"]) = .panicked msg s2
        ∧ s2.gets = ["http://a.example/"]
        ∧ s2.registry = (cycle exampleWorld State.init ["http://a.example/"]).state.registry) :=
  bad_url_panics exampleWorld State.init
    (cycle exampleWorld State.init ["http://a.example/"]).state "\t"
    "parse \"\\t\": net/url: invalid control character in URL"
    ["http://a.example/"] ["http://c.example/"] (by decide) rfl (by decide)

/-- C9: when every non-blank line of the list parses, the GETs issued in one
pass are the trimmed non-blank lines in the order of the list, one GET each,
and every pass of the loop goes over the same list from its first line. -/
theorem probes_in_order (w : World) (lines : List String) (s : State) (n : Nat)
    (h : ∀ l ∈ lines, Trim l ≠ "" → ∃ u, w.Parse (Trim l) = .ok u) :
    (∃ s2, cycle w s lines = .returned s2
        ∧ s2.gets = s.gets ++ (lines.map Trim).filter (fun l => l ≠ ""))
      ∧ (∃ s2, monitorLoop w lines n s = .returned s2
        ∧ s2.gets = s.gets
            ++ (List.replicate n ((lines.map Trim).filter (fun l => l ≠ ""))).flatten) :=
  ⟨cycle_gets w lines h s, monitorLoop_gets w lines h n s⟩

theorem probes_in_order_witness :
    (∃ s2, cycle exampleWorld State.init ["http://a.example/", " \r", " http://b.example/\r"]
          = .returned s2
        ∧ s2.gets = ["http://a.example/", "http://b.example/"])
      ∧ (∃ s2, monitorLoop exampleWorld
            ["http://a.example/", " \r", " http://b.example/\r"] 2 State.init = .returned s2
        ∧ s2.gets = ["http://a.example/", "http://b.example/",
            "http://a.example/", "http://b.example/"]) :=
  probes_in_order exampleWorld ["http://a.example/", " \r", " http://b.example/\r"]
    State.init 2 (by
      intro l hl _
      have hl2 : l = "http://a.example/" ∨ l = " \r" ∨ l = " http://b.example/\r" := by
        simpa using hl
      rcases hl2 with rfl | rfl | rfl
      · exact ⟨_, rfl⟩
      · exact ⟨_, rfl⟩
      · exact ⟨_, rfl⟩)

/-- C3 fails: in a pass over three targets of which the second is refused,
the refused probe is timed and observed like the others, so the registry holds
three latency samples, one of them under the label of the failed target. -/
theorem failed_probe_is_sampled :
    (exampleWorld.Get 0 "http://a.example/").err = none
      ∧ (exampleWorld.Get 1 "http://b.example/").err ≠ none
      ∧ (exampleWorld.Get 2 "http://c.example/").err = none
      ∧ (cycle exampleWorld State.init
          ["http://a.example/", "http://b.example/", "http://c.example/"]).state.registry
        = { requestDurations :=
              [("a_example", [5000000]), ("b_example", [2000000]), ("c_example", [5000000])]
            requestErrors := [("b_example", 1)] }
      ∧ (cycle exampleWorld State.init
          ["http://a.example/", "http://b.example/", "http://c.example/"]).state.registry.totalSamples
        = 3
      ∧ (cycle exampleWorld State.init
          ["http://a.example/", "http://b.example/", "http://c.example/"]).state.registry.sampleCount
            (getMetricName "b.example")
        = 1 := by
  decide

/-- C3 (amended): from an empty registry, after one pass over `[A, B, C]`, all
three parsing, where the GET for `A` and the GET for `C` return no error and
the GET for `B` returns one, the registry holds three latency samples in all,
one for each target under the label of that target, and one error increment,
under the label of `B`. -/
theorem cycle_three_targets (w : World) (s : State) (A B C : String) (uA uB uC : URL)
    (hs : s.registry = Registry.empty)
    (hA : Trim A ≠ "") (hB : Trim B ≠ "") (hC : Trim C ≠ "")
    (pA : w.Parse (Trim A) = .ok uA) (pB : w.Parse (Trim B) = .ok uB)
    (pC : w.Parse (Trim C) = .ok uC)
    (gA : (w.Get s.gets.length (Trim A)).err = none)
    (gB : (w.Get (s.gets.length + 1) (Trim B)).err ≠ none)
    (gC : (w.Get (s.gets.length + 2) (Trim C)).err = none) :
    ∃ s2, cycle w s [A, B, C] = .returned s2
      ∧ s2.registry.totalSamples = 3
      ∧ (∀ l, s2.registry.sampleCount l
          = [getMetricName uA.Host, getMetricName uB.Host, getMetricName uC.Host].count l)
      ∧ s2.registry.totalErrors = 1
      ∧ (∀ l, s2.registry.errorCount l = if getMetricName uB.Host = l then 1 else 0) := by
  obtain ⟨sA, mA, gsA, dA, eA⟩ := makeRequest_parsed_fields w s A uA hA pA
  obtain ⟨sB, mB, gsB, dB, eB⟩ := makeRequest_parsed_fields w sA B uB hB pB
  obtain ⟨sC, mC, _, dC, eC⟩ := makeRequest_parsed_fields w sB C uC hC pC
  have lenA : sA.gets.length = s.gets.length + 1 := by rw [gsA]; simp
  have lenB : sB.gets.length = s.gets.length + 2 := by rw [gsB, List.length_append, lenA]; rfl
  rw [lenB, gC] at eC
  rw [lenA, if_pos (Option.isSome_iff_ne_none.2 gB)] at eB
  rw [gA] at eA
  simp only [Option.isSome_none, Bool.false_eq_true, if_false] at eA eC
  have hd0 : s.registry.requestDurations = [] := by rw [hs]; rfl
  have he0 : s.registry.requestErrors = [] := by rw [hs]; rfl
  have hd : sC.registry.requestDurations
      = Observe (Observe (Observe [] (getMetricName uA.Host)
            (w.Get s.gets.length (Trim A)).elapsed) (getMetricName uB.Host)
            (w.Get sA.gets.length (Trim B)).elapsed) (getMetricName uC.Host)
            (w.Get sB.gets.length (Trim C)).elapsed := by
    rw [dC, dB, dA, hd0]
  have he : sC.registry.requestErrors = Inc [] (getMetricName uB.Host) := by
    rw [eC, eB, eA, he0]
  refine ⟨sC, ?_, ?_, ?_, ?_, ?_⟩
  · rw [cycle_cons_returned w s sA A _ mA, cycle_cons_returned w sA sB B _ mB,
      cycle_cons_returned w sB sC C _ mC]
    rfl
  · unfold Registry.totalSamples
    rw [hd, sum_Observe, sum_Observe, sum_Observe]
    rfl
  · intro l
    rw [sampleCount_eq, hd, child_Observe, child_Observe, child_Observe]
    by_cases h1 : getMetricName uA.Host = l <;> by_cases h2 : getMetricName uB.Host = l <;>
      by_cases h3 : getMetricName uC.Host = l <;>
      simp [child, h1, h2, h3, List.count_cons]
  · unfold Registry.totalErrors
    rw [he, sum_Inc]
    rfl
  · intro l
    rw [errorCount_eq, he, child_Inc]
    by_cases h2 : getMetricName uB.Host = l <;> simp [child, h2]

theorem cycle_three_targets_witness :
    ∃ s2, cycle exampleWorld State.init
          ["http://a.example/", "http://b.example/", "http://c.example/"] = .returned s2
      ∧ s2.registry.totalSamples = 3
      ∧ (∀ l, s2.registry.sampleCount l
          = [getMetricName "a.example", getMetricName "b.example",
              getMetricName "c.example"].count l)
      ∧ s2.registry.totalErrors = 1
      ∧ (∀ l, s2.registry.errorCount l = if getMetricName "b.example" = l then 1 else 0) :=
  cycle_three_targets exampleWorld State.init
    "http://a.example/" "http://b.example/" "http://c.example/"
    ⟨"a.example"⟩ ⟨"b.example"⟩ ⟨"c.example"⟩ rfl (by decide) (by decide) (by decide)
    rfl rfl rfl (by decide) (by decide) (by decide)

/-- C8 fails: the hosts `a.b` and `a-b` differ, yet both are given the label
`a_b`, and the samples of the two targets end up in one registry child. -/
theorem distinct_hosts_share_label :
    (exampleWorld.Parse "http://a.b/").toOption = some ⟨"a.b"⟩
      ∧ (exampleWorld.Parse "http://a-b/").toOption = some ⟨"a-b"⟩
      ∧ "a.b" ≠ "a-b"
      ∧ getMetricName "a.b" = getMetricName "a-b"
      ∧ (cycle exampleWorld State.init ["http://a.b/", "http://a-b/"]).state.registry
        = { requestDurations := [("a_b", [5000000, 5000000])], requestErrors := [] } := by
  decide

/-- C8 (amended): for every two targets that parse and whose labels differ, a
probe of either one leaves the latency child and the error child of the other
one's label as they were, so the two are accumulated in separate entries; the
hosts `good.example` and `bad.example:9999` have distinct labels. -/
theorem distinct_labels_separate (w : World) (s : State) (A C : String) (uA uC : URL)
    (hA : Trim A ≠ "") (hC : Trim C ≠ "")
    (pA : w.Parse (Trim A) = .ok uA) (pC : w.Parse (Trim C) = .ok uC)
    (hne : getMetricName uA.Host ≠ getMetricName uC.Host) :
    (∃ s2, makeRequest w s A = .returned s2
        ∧ child s2.registry.requestDurations (getMetricName uC.Host)
            = child s.registry.requestDurations (getMetricName uC.Host)
        ∧ child s2.registry.requestErrors (getMetricName uC.Host)
            = child s.registry.requestErrors (getMetricName uC.Host))
      ∧ (∃ s2, makeRequest w s C = .returned s2
        ∧ child s2.registry.requestDurations (getMetricName uA.Host)
            = child s.registry.requestDurations (getMetricName uA.Host)
        ∧ child s2.registry.requestErrors (getMetricName uA.Host)
            = child s.registry.requestErrors (getMetricName uA.Host))
      ∧ getMetricName "good.example" = "good_example"
      ∧ getMetricName "bad.example:9999" = "bad_example_"
      ∧ getMetricName "good.example" ≠ getMetricName "bad.example:9999" := by
  obtain ⟨sA, mA, _, dA, eA⟩ := makeRequest_parsed_fields w s A uA hA pA
  obtain ⟨sC, mC, _, dC, eC⟩ := makeRequest_parsed_fields w s C uC hC pC
  refine ⟨⟨sA, mA, ?_, ?_⟩, ⟨sC, mC, ?_, ?_⟩, by decide, by decide, by decide⟩
  · rw [dA, child_Observe, if_neg hne]
  · rw [eA]
    split_ifs
    · rw [child_Inc, if_neg hne]
    · rfl
  · rw [dC, child_Observe, if_neg (Ne.symm hne)]
  · rw [eC]
    split_ifs
    · rw [child_Inc, if_neg (Ne.symm hne)]
    · rfl

theorem distinct_labels_separate_witness :
    (∃ s2, makeRequest exampleWorld State.init "http://a.example/" = .returned s2
        ∧ child s2.registry.requestDurations (getMetricName "b.example")
            = child State.init.registry.requestDurations (getMetricName "b.example")
        ∧ child s2.registry.requestErrors (getMetricName "b.example")
            = child State.init.registry.requestErrors (getMetricName "b.example"))
      ∧ (∃ s2, makeRequest exampleWorld State.init "http://b.example/" = .returned s2
        ∧ child s2.registry.requestDurations (getMetricName "a.example")
            = child State.init.registry.requestDurations (getMetricName "a.example")
        ∧ child s2.registry.requestErrors (getMetricName "a.example")
            = child State.init.registry.requestErrors (getMetricName "a.example"))
      ∧ getMetricName "good.example" = "good_example"
      ∧ getMetricName "bad.example:9999" = "bad_example_"
      ∧ getMetricName "good.example" ≠ getMetricName "bad.example:9999" :=
  distinct_labels_separate exampleWorld State.init "http://a.example/" "http://b.example/"
    ⟨"a.example"⟩ ⟨"b.example"⟩ (by decide) (by decide) rfl rfl (by decide)

end Monitor
